import Mathlib

/-
Verification of the graphene-sqlalchemy core against its specification.

The development shallowly embeds the repository's type-conversion engine
(converter.py), the memoizing Registry (registry.py), the required-ness
helpers (utils.py) and the mutation authorization/upsert logic
(mutation.py) as executable Lean definitions, and proves the spec's
claims about them.

Embedding conventions:
* Python dicts (and OrderedDicts) are association lists with
  replace-or-append assignment (`odInsert`) and first-match lookup
  (`lookupA`); in-place mutation of a shared object is modelled by
  returning the updated structure.
* A Python value that may be `None` is an `Option`.
* Code that can raise returns `Except`; the exceptions that the claims
  exercise are enumerated in the error types below.
* SQLAlchemy entity models are records of columns and relationships
  (models with composites, synonyms or ORM descriptors are outside the
  claims and are not populated, matching the converter paths the claims
  cite, which classify only scalar columns and relationships).
-/

namespace GrapheneSqlalchemy

/-! ## Association-list primitives (Python dict semantics) -/

/-- First-match lookup in an association list, like `dict.get`. -/
def lookupA {κ α : Type} [DecidableEq κ] : List (κ × α) → κ → Option α
  | [], _ => none
  | (k, v) :: t, a => if a = k then some v else lookupA t a

/-- Python dict assignment `d[k] = v`: replace the value of an existing key
in place, else append the binding at the end (OrderedDict order). -/
def odInsert {κ α : Type} [DecidableEq κ] : List (κ × α) → κ → α → List (κ × α)
  | [], k, v => [(k, v)]
  | (k', v') :: t, k, v => if k = k' then (k, v) :: t else (k', v') :: odInsert t k v

/-- The key list of an association list. -/
def keysOf {κ α : Type} (l : List (κ × α)) : List κ := l.map Prod.fst

/-- Python `dict.update(src)`: fold the source's bindings into the target. -/
def dictUpdate {κ α : Type} [DecidableEq κ] (d src : List (κ × α)) : List (κ × α) :=
  src.foldl (fun acc kv => odInsert acc kv.1 kv.2) d

/-! ## Entity-model data (the SQLAlchemy metadata the converter reads) -/

/-- A native Python `enum.Enum` class attached to a `sqlalchemy.Enum` type:
its class name and its member names. -/
structure EnumClass where
  name : String
  members : List String
deriving DecidableEq, Repr

/-- The concrete SQLAlchemy column types that `convert_sqlalchemy_type`
dispatches on.  `str` stands for all of String/Text/Unicode/VARCHAR/...;
`uuid` carries postgresql.UUID's `as_uuid` flag; `enum` carries the
optional native `enum_class`, the type's name and its string options. -/
inductive ColType where
  | str
  | int
  | uuid (asUuid : Bool)
  | float
  | bool
  | datetime
  | date
  | time
  | json
  | enum (enumClass : Option EnumClass) (typeName : String) (options : List String)
  | array (itemType : ColType)
deriving DecidableEq, Repr

/-- A mapped column: name, declared type, `nullable`, presence of a
`default`, `primary_key` flag and `doc`. -/
structure Column where
  name : String
  colType : ColType
  nullable : Bool := true
  hasDefault : Bool := false
  primaryKey : Bool := false
  doc : Option String := none
deriving DecidableEq, Repr

/-- sqlalchemy.orm.interfaces relationship directions. -/
inductive Direction where
  | manytoone
  | onetomany
  | manytomany
deriving DecidableEq, Repr

/-- A mapped relationship: its attribute key, direction, `uselist` flag,
the target entity (by model name), and `_user_defined_foreign_keys`. -/
structure Relationship where
  key : String
  direction : Direction
  uselist : Bool
  targetModelName : String
  userDefinedForeignKeys : List Column
  doc : Option String := none
deriving DecidableEq, Repr

/-- An entity model as the classifier reads it: name, columns and
relationships (in mapper declaration order). -/
structure Model where
  name : String
  columns : List Column
  relationships : List Relationship
deriving DecidableEq, Repr

/-- A field source yielded by `iter_fields`: either a plain column or a
relationship. -/
inductive SourceField where
  | col (c : Column)
  | rel (r : Relationship)
deriving DecidableEq, Repr

/-! ## utils.py: nullability / default / required-ness helpers.
`getattr(column, "nullable", True)` and `getattr(column, "default", None)`
are total over both field sources: a RelationshipProperty has neither
attribute, so the getattr defaults apply to it. -/

/-- Embeds `is_column_nullable` (utils.py:80-81) over a field source. -/
def SourceField.nullableAttr : SourceField → Bool
  | .col c => c.nullable
  | .rel _ => true

/-- Embeds `is_column_has_default` (utils.py:84-85) over a field source. -/
def SourceField.hasDefaultAttr : SourceField → Bool
  | .col c => c.hasDefault
  | .rel _ => false

/-- Embeds `get_column_doc` (utils.py:76-77) over a field source. -/
def SourceField.docAttr : SourceField → Option String
  | .col c => c.doc
  | .rel r => r.doc

/-- Embeds `is_column_required` (utils.py:88-92) over a field source. -/
def isColumnRequiredS (s : SourceField) (forInput : Bool) : Bool :=
  if forInput then !(s.hasDefaultAttr || s.nullableAttr)
  else !s.nullableAttr

/-- Embeds `is_column_required` (utils.py:88-92) applied to a column. -/
def isColumnRequired (c : Column) (forInput : Bool) : Bool :=
  isColumnRequiredS (.col c) forInput

/-! ## Produced GraphQL field descriptors and generated types -/

/-- A generated Graphene enum type (`graphene.Enum.from_enum` /
`graphene.Enum(name, items)`). -/
structure GEnum where
  name : String
  values : List String
deriving DecidableEq, Repr

/-- The output shape of one produced field descriptor. -/
inductive Shape where
  | id
  | string
  | int
  | uuid
  | float
  | bool
  | datetime
  | date
  | time
  | json
  | enumF (e : GEnum)
  | listOf (s : Shape)
  | dynamic
  | objectF (typeName : String)
  | connection (typeName : Option String)
  | cast (tag : String)
deriving DecidableEq, Repr

/-- One produced field descriptor: shape, resolved name, required flag and
description.  (A `graphene.Dynamic` carries no name/required of its own;
they are recorded here under the attribute name for uniformity.) -/
structure GField where
  shape : Shape
  name : String
  required : Bool
  description : Option String := none
deriving DecidableEq, Repr

/-- A registered output type for an entity model, as the deferred
relationship resolver sees it: its name and whether `_meta.connection`
is set. -/
structure ModelType where
  name : String
  connection : Bool
deriving DecidableEq, Repr

/-- A memoized attributes bundle: the class produced by
`type(attributes_name, (object,), _fields)`, i.e. a name plus the field
set it was built with. -/
structure AttributesBundle where
  name : String
  fields : List (String × GField)
deriving DecidableEq, Repr

/-! ## registry.py: the Registry with its four namespaces -/

/-- Embeds the `Registry` class (registry.py:1-41): four independent
keyed namespaces, populated monotonically. -/
structure Registry where
  registryModels : List (String × ModelType) := []
  registryComposites : List (String × String) := []
  registryAttributes : List (String × AttributesBundle) := []
  registryEnums : List (String × GEnum) := []
deriving DecidableEq, Repr

/-- A freshly constructed `Registry()`. -/
def Registry.empty : Registry := {}

/-- Embeds `Registry.get_type_for_model` (registry.py:22-23), keyed by the
model (identified by its name). -/
def Registry.getTypeForModel (reg : Registry) (modelName : String) : Option ModelType :=
  lookupA reg.registryModels modelName

/-- Embeds `Registry.register_attributes` (registry.py:25-26): keyed by the
bundle class's `__name__`. -/
def Registry.registerAttributes (reg : Registry) (b : AttributesBundle) : Registry :=
  { reg with registryAttributes := odInsert reg.registryAttributes b.name b }

/-- Embeds `Registry.get_attributes_for_model` (registry.py:28-29). -/
def Registry.getAttributesForModel (reg : Registry) (attributesName : String) :
    Option AttributesBundle :=
  lookupA reg.registryAttributes attributesName

/-- Embeds `Registry.register_enum` (registry.py:37-38): keyed by the
generated enum type's `__name__`. -/
def Registry.registerEnum (reg : Registry) (e : GEnum) : Registry :=
  { reg with registryEnums := odInsert reg.registryEnums e.name e }

/-- Embeds `Registry.get_enum` (registry.py:40-41). -/
def Registry.getEnum (reg : Registry) (enumName : String) : Option GEnum :=
  lookupA reg.registryEnums enumName

/-! ## converter.py: scalar converters -/

/-- The Python exceptions the converter paths of the claims can raise. -/
inductive ConvErr where
  | attributeError
  | assertionError
deriving DecidableEq, Repr

/-- Embeds `convert_id_field` (converter.py:349-359), including its
`assert input_attributes or is_required` guard. -/
def convertIdField (f : Column) (nm : Option String) (reg : Registry)
    (inputAttributes optionalField : Bool) : Except ConvErr (GField × Registry) :=
  if !inputAttributes && !(isColumnRequired f inputAttributes) then .error .assertionError
  else .ok ({ shape := .id, name := nm.getD f.name,
              required := !optionalField && isColumnRequired f inputAttributes,
              description := f.doc }, reg)

/-- Embeds `convert_str_field` (converter.py:399-425): primary-key columns
are routed to `convert_id_field`, the rest become String fields. -/
def convertStrField (f : Column) (nm : Option String) (reg : Registry)
    (inputAttributes optionalField : Bool) : Except ConvErr (GField × Registry) :=
  if f.primaryKey then convertIdField f nm reg inputAttributes optionalField
  else .ok ({ shape := .string, name := nm.getD f.name,
              required := !optionalField && isColumnRequired f inputAttributes,
              description := f.doc }, reg)

/-- Embeds `convert_int_field` (converter.py:428-447); note the source
passes `None` as the name on the primary-key path. -/
def convertIntField (f : Column) (nm : Option String) (reg : Registry)
    (inputAttributes optionalField : Bool) : Except ConvErr (GField × Registry) :=
  if f.primaryKey then convertIdField f none reg inputAttributes optionalField
  else .ok ({ shape := .int, name := nm.getD f.name,
              required := !optionalField && isColumnRequired f inputAttributes,
              description := f.doc }, reg)

/-- Embeds `convert_uuid_field` (converter.py:372-396): primary keys become
identifiers, non-`as_uuid` columns fall back to the string converter. -/
def convertUuidField (asUuid : Bool) (f : Column) (nm : Option String) (reg : Registry)
    (inputAttributes optionalField : Bool) : Except ConvErr (GField × Registry) :=
  if f.primaryKey then convertIdField f nm reg inputAttributes optionalField
  else if !asUuid then convertStrField f nm reg inputAttributes optionalField
  else .ok ({ shape := .uuid, name := nm.getD f.name,
              required := !optionalField && isColumnRequired f inputAttributes,
              description := f.doc }, reg)

/-- Shared body of the simple scalar converters
(float/bool/datetime/date/time/json, converter.py:450-534), which differ
only in the produced shape. -/
def convertSimpleField (shape : Shape) (f : Column) (nm : Option String) (reg : Registry)
    (inputAttributes optionalField : Bool) : Except ConvErr (GField × Registry) :=
  .ok ({ shape := shape, name := nm.getD f.name,
         required := !optionalField && isColumnRequired f inputAttributes,
         description := f.doc }, reg)

/-- Embeds `convert_enum_field` (converter.py:537-561).  The source first
evaluates `registry.get_enum(enum_class.__name__)`: when the column's type
declares no native enum class (`enum_class is None`) this raises
AttributeError before the string-options branch can run, so that branch
is unreachable. -/
def convertEnumField (enumClass : Option EnumClass) (_typeName : String)
    (_options : List String) (f : Column) (nm : Option String) (reg : Registry)
    (inputAttributes optionalField : Bool) : Except ConvErr (GField × Registry) :=
  match enumClass with
  | none => .error .attributeError
  | some cls =>
    match reg.getEnum cls.name with
    | some g =>
      .ok ({ shape := .enumF g, name := nm.getD f.name,
             required := !optionalField && isColumnRequired f inputAttributes,
             description := f.doc }, reg)
    | none =>
      let g : GEnum := { name := cls.name, values := cls.members }
      .ok ({ shape := .enumF g, name := nm.getD f.name,
             required := !optionalField && isColumnRequired f inputAttributes,
             description := f.doc }, reg.registerEnum g)

/-- Embeds the `convert_sqlalchemy_type` single-dispatch converter
(converter.py:362-606) over the column types above; the array case
recursively converts the element type with the same column and no
optional override (converter.py:590-606). -/
def convertSqlalchemyType : ColType → Column → Option String → Registry → Bool → Bool →
    Except ConvErr (GField × Registry)
  | .str, f, nm, reg, input, opt => convertStrField f nm reg input opt
  | .int, f, nm, reg, input, opt => convertIntField f nm reg input opt
  | .uuid asUuid, f, nm, reg, input, opt => convertUuidField asUuid f nm reg input opt
  | .float, f, nm, reg, input, opt => convertSimpleField .float f nm reg input opt
  | .bool, f, nm, reg, input, opt => convertSimpleField .bool f nm reg input opt
  | .datetime, f, nm, reg, input, opt => convertSimpleField .datetime f nm reg input opt
  | .date, f, nm, reg, input, opt => convertSimpleField .date f nm reg input opt
  | .time, f, nm, reg, input, opt => convertSimpleField .time f nm reg input opt
  | .json, f, nm, reg, input, opt => convertSimpleField .json f nm reg input opt
  | .enum ec tn opts, f, nm, reg, input, opt => convertEnumField ec tn opts f nm reg input opt
  | .array itemType, f, nm, reg, input, opt =>
    match convertSqlalchemyType itemType f nm reg input false with
    | .error e => .error e
    | .ok (inner, reg') =>
      .ok ({ shape := .listOf inner.shape, name := nm.getD f.name,
             required := !opt && isColumnRequired f input,
             description := f.doc }, reg')

/-- Embeds `convert_sqlalchemy_field` (converter.py:338-346): dispatch on
the column's own declared type. -/
def convertSqlalchemyField (f : Column) (nm : Option String) (reg : Registry)
    (inputAttributes optionalField : Bool) : Except ConvErr (GField × Registry) :=
  convertSqlalchemyType f.colType f nm reg inputAttributes optionalField

/-! ## converter.py: relationship conversion -/

/-- Embeds the deferred `dynamic_type` closure of
`convert_sqlalchemy_relationship` (converter.py:262-273), evaluated in
non-input mode against the registry available at resolution time.  When
the target model has no registered type the closure returns `None`
(graphene then drops the field); otherwise a direct object field, a
connection field (via the factory) or a plain list field is produced. -/
def relationshipDynamicType (reg : Registry) (r : Relationship)
    (connectionFieldFactory : Relationship → Registry → GField) : Option GField :=
  match reg.getTypeForModel r.targetModelName with
  | none => none
  | some t =>
    if r.direction = .manytoone ∨ r.uselist = false then
      some { shape := .objectF t.name, name := r.key, required := false }
    else if r.direction = .onetomany ∨ r.direction = .manytomany then
      if t.connection then some (connectionFieldFactory r reg)
      else some { shape := .listOf (.objectF t.name), name := r.key, required := false }
    else none

/-- Embeds `default_connection_field_factory` (fields.py:98-101):
an `UnsortedConnectionField` over the registry's type for the target
model. -/
def defaultConnectionFieldFactory (r : Relationship) (reg : Registry) : GField :=
  { shape := .connection ((reg.getTypeForModel r.targetModelName).map (·.name)),
    name := r.key, required := false }

/-- Embeds `convert_sqlalchemy_model_to_scheme` (converter.py:209-251).
Its first statement calls `registry.get_type_for_relationship_input`, a
method the `Registry` class (registry.py:1-41) does not define, so in
Python the call raises AttributeError before any type is looked up or
synthesized; the rest of the function is unreachable. -/
def convertSqlalchemyModelToScheme (_modelName _nm _classname : String) (_reg : Registry)
    (_inputAttributes : Bool) : Except ConvErr (GField × Registry) :=
  .error .attributeError

/-- Embeds `convert_sqlalchemy_relationship` (converter.py:254-299).
Non-input mode returns a deferred `graphene.Dynamic` (its closure is
modelled separately by `relationshipDynamicType`).  Input mode reduces a
to-one relationship to its foreign-key scalar with the optional override
set (`convert_sqlalchemy_field(None, ...)` raises AttributeError when the
relationship declares no foreign key, since `f.type` is read off `None`),
and sends a to-many relationship to `convert_sqlalchemy_model_to_scheme`
under the class name `{model}RelationshipInput`. -/
def convertSqlalchemyRelationship (r : Relationship) (nm : Option String) (reg : Registry)
    (inputAttributes : Bool) : Except ConvErr (GField × Registry) :=
  if !inputAttributes then
    .ok ({ shape := .dynamic, name := nm.getD r.key, required := false }, reg)
  else if r.direction = .manytoone ∨ r.uselist = false then
    match r.userDefinedForeignKeys.head? with
    | none => .error .attributeError
    | some fkc => convertSqlalchemyField fkc nm reg inputAttributes true
  else
    convertSqlalchemyModelToScheme r.targetModelName (nm.getD r.key)
      (r.targetModelName ++ "RelationshipInput") reg inputAttributes

/-! ## converter.py: classifier and field construction -/

/-- The `FieldType` enumeration (converter.py:21-25). -/
inductive FieldKind where
  | scalar
  | composite
  | hybrid
  | relationship
deriving DecidableEq, Repr

/-- One item yielded by `iter_fields`: the public name and the source
field. -/
structure IterItem where
  name : String
  src : SourceField
deriving DecidableEq, Repr

/-- The kind tag `iter_fields` yields alongside each item. -/
def IterItem.kind : IterItem → FieldKind
  | ⟨_, .col _⟩ => .scalar
  | ⟨_, .rel _⟩ => .relationship

/-- Embeds `_skip_field_with_name` (converter.py:31-36). -/
def skipField (onlyFields excludeFields : List String) (name : String) : Bool :=
  (!onlyFields.isEmpty && !(decide (name ∈ onlyFields))) || decide (name ∈ excludeFields)

/-- Embeds `iter_fields` (converter.py:28-72) over column+relationship
models: relationships are yielded first, then plain columns, each
filtered by `_skip_field_with_name`. -/
def iterFields (m : Model) (onlyFields excludeFields : List String) : List IterItem :=
  (m.relationships.filter (fun r => skipField onlyFields excludeFields r.key = false)).map
      (fun r => ⟨r.key, .rel r⟩)
    ++ (m.columns.filter (fun c => skipField onlyFields excludeFields c.name = false)).map
      (fun c => ⟨c.name, .col c⟩)

/-- The conversion performed for one item inside `construct_fields`
(converter.py:108-122): an explicit `type_cast` entry builds the cast
type directly with the shared required-ness computation, otherwise the
item is dispatched to its kind's converter. -/
def convertItem (typeCast : List (String × String)) (inputAttributes : Bool)
    (reg : Registry) (it : IterItem) : Except ConvErr (GField × Registry) :=
  match lookupA typeCast it.name with
  | some tag =>
    .ok ({ shape := .cast tag, name := it.name,
           required := isColumnRequiredS it.src inputAttributes,
           description := it.src.docAttr }, reg)
  | none =>
    match it.src with
    | .col c => convertSqlalchemyField c (some it.name) reg inputAttributes false
    | .rel r => convertSqlalchemyRelationship r (some it.name) reg inputAttributes

/-- The loop of `construct_fields` (converter.py:93-127): items whose kind
is not requested are skipped; a relationship records its backing
foreign-key column name (or its own name) in the per-call exclusion
list; a scalar whose name is already excluded is skipped; everything
else is converted and assigned into the ordered field dict.  (The
`if not converted_field` guard is vacuous: every converter returns a
truthy field object.) -/
def constructFieldsAux (fieldTypes : List FieldKind) (typeCast : List (String × String))
    (inputAttributes : Bool) :
    List IterItem → List (String × GField) → List String → Registry →
    Except ConvErr (List (String × GField) × Registry)
  | [], fields, _, reg => .ok (fields, reg)
  | it :: rest, fields, relationshipKeys, reg =>
    if it.kind ∈ fieldTypes then
      match it.src with
      | .rel r =>
        let fkName := match r.userDefinedForeignKeys.head? with
          | some fkc => fkc.name
          | none => it.name
        match convertItem typeCast inputAttributes reg it with
        | .error e => .error e
        | .ok (g, reg') =>
          constructFieldsAux fieldTypes typeCast inputAttributes rest
            (odInsert fields it.name g) (relationshipKeys ++ [fkName]) reg'
      | .col _ =>
        if it.name ∈ relationshipKeys then
          constructFieldsAux fieldTypes typeCast inputAttributes rest fields relationshipKeys reg
        else
          match convertItem typeCast inputAttributes reg it with
          | .error e => .error e
          | .ok (g, reg') =>
            constructFieldsAux fieldTypes typeCast inputAttributes rest
              (odInsert fields it.name g) relationshipKeys reg'
    else
      constructFieldsAux fieldTypes typeCast inputAttributes rest fields relationshipKeys reg

/-- Embeds `construct_fields` (converter.py:75-127). -/
def constructFields (m : Model) (reg : Registry) (onlyFields excludeFields : List String)
    (fieldTypes : List FieldKind) (typeCast : List (String × String))
    (inputAttributes : Bool) : Except ConvErr (List (String × GField) × Registry) :=
  constructFieldsAux fieldTypes typeCast inputAttributes
    (iterFields m onlyFields excludeFields) [] [] reg

/-- The bundle name `convert_model_to_attributes` resolves
(converter.py:166-167): the caller's name, else `model.__name__ +
'Attribute'` — with no input-mode discriminator. -/
def resolvedAttributesName (m : Model) (attributesName : Option String) : String :=
  attributesName.getD (m.name ++ "Attribute")

/-- Embeds `convert_model_to_attributes` (converter.py:152-181): look the
resolved bundle name up in the registry's attributes namespace; on a miss,
build the scalar+relationship field set (`get_attributes_fields` with
`field_types=(FieldType.scalar, FieldType.relationship)`), wrap it as the
bundle class and register it.  (The `yank_fields_from_attrs` wrapper and
the `isinstance(registry, Registry)` assert are graphene plumbing with no
effect on the embedded state.) -/
def convertModelToAttributes (m : Model) (reg : Registry) (attributesName : Option String)
    (inputAttributes : Bool) (typeCast : List (String × String))
    (onlyFields excludeFields : List String) :
    Except ConvErr (AttributesBundle × Registry) :=
  let name := resolvedAttributesName m attributesName
  match reg.getAttributesForModel name with
  | some attrs => .ok (attrs, reg)
  | none =>
    match constructFields m reg onlyFields excludeFields
        [FieldKind.scalar, FieldKind.relationship] typeCast inputAttributes with
    | .error e => .error e
    | .ok (fields, reg') =>
      let attrs : AttributesBundle := { name := name, fields := fields }
      .ok (attrs, reg'.registerAttributes attrs)

/-! ## mutation.py: role-based field authorization.
Input field values are `Option V`: `none` is Python's `None`.  The
roles map is an association list from role name to allowance; Python's
in-place `fields_for_role.append('id')` mutation of the shared list is
modelled by returning the updated map from each call. -/

/-- A role's entry in the roles map: either the wildcard `'*'` or an
explicit list of field names. -/
inductive Allowance where
  | star
  | fieldList (fs : List String)
deriving DecidableEq, Repr

/-- The mutation-time exceptions (mutation.py:155, 174), plus the
`dict.update`-on-a-tuple `ValueError` that the empty-roles-map branch of
`_available_fields_for_user` (mutation.py:150) always raises: it updates
`_fields` with the `(allowed, disallowed)` tuple itself, whose second
element is an empty dict and hence not a key/value pair. -/
inductive AuthErr where
  | noRolesForUser
  | fieldNotAllowed (n : String)
  | valueError
deriving DecidableEq, Repr

/-- Embeds `Mutation._get_fields_for_role` (mutation.py:125-141), returning
`(allowed_fields, disallowed_fields, roles_map)` where the third component
is the map after the in-place `fields_for_role.append('id')` mutation. -/
def getFieldsForRole {V : Type} [DecidableEq V] (role : String)
    (rolesMap : List (String × Allowance)) (data : List (String × Option V)) :
    List (String × Option V) × List (String × Option V) × List (String × Allowance) :=
  let fieldsForRole : Option Allowance :=
    if rolesMap.isEmpty then some .star else lookupA rolesMap role
  match fieldsForRole with
  | some (.fieldList fs) =>
    let fs' := fs ++ ["id"]
    (data.filter (fun kv => decide (kv.1 ∈ fs')),
     data.filter (fun kv => decide (kv.1 ∉ fs')),
     odInsert rolesMap role (.fieldList fs'))
  | some .star => (data, [], rolesMap)
  | none => ([], [], rolesMap)

/-- The aggregation loop of `_available_fields_for_user`
(mutation.py:157-162): fold `_get_fields_for_role` over the applicable
roles, merging allowed/disallowed via `dict.update` and threading the
mutated roles map. -/
def authFold {V : Type} [DecidableEq V] (data : List (String × Option V)) :
    List String →
    List (String × Option V) × List (String × Option V) × List (String × Allowance) →
    List (String × Option V) × List (String × Option V) × List (String × Allowance)
  | [], acc => acc
  | role :: rest, (al, dis, rm) =>
    let (a, d, rm') := getFieldsForRole role rm data
    authFold data rest (dictUpdate al a, dictUpdate dis d, rm')

/-- The value test `data.get(n) is not None` (mutation.py:173). -/
def dataGet {V : Type} [DecidableEq V] (data : List (String × Option V)) (n : String) :
    Option V :=
  match lookupA data n with
  | some (some v) => some v
  | _ => none

/-- The applicable roles `list(set(roles_map.keys()) & set(user_roles))`
(mutation.py:152), in deterministic map-key order — Python leaves the
set's iteration order unspecified. -/
def availableRolesOf (userRoles : List String) (rolesMap : List (String × Allowance)) :
    List String :=
  (keysOf rolesMap).filter (fun ρ => decide (ρ ∈ userRoles))

/-- Embeds `Mutation._available_fields_for_user` (mutation.py:143-178).
The first disallowed field with a non-`None` value raises
`Field {n} not allowed for user`.  On success the allowed fields and the
(mutated) roles map are returned. -/
def availableFieldsForUser {V : Type} [DecidableEq V] (userRoles : List String)
    (rolesMap : List (String × Allowance)) (data : List (String × Option V)) :
    Except AuthErr (List (String × Option V) × List (String × Allowance)) :=
  if rolesMap.isEmpty then .error .valueError
  else
    if (availableRolesOf userRoles rolesMap).isEmpty then .error .noRolesForUser
    else
      let res := authFold data (availableRolesOf userRoles rolesMap) ([], [], rolesMap)
      let allowedFieldNames := (keysOf res.1).filter (fun n => decide (n ∈ keysOf data))
      let disallowedFieldNames :=
        (keysOf res.2.1).filter (fun n => decide (n ∉ allowedFieldNames))
      match disallowedFieldNames.find? (fun n => (dataGet data n).isSome) with
      | some n => .error (.fieldNotAllowed n)
      | none => .ok (res.1, res.2.2)

/-- Role `ρ` allows field `n` in `_get_fields_for_role`'s classification:
the wildcard allows everything, an explicit list allows its members plus
the appended `'id'`. -/
def roleAllows (rolesMap : List (String × Allowance)) (ρ n : String) : Bool :=
  match lookupA rolesMap ρ with
  | some .star => true
  | some (.fieldList fs) => decide (n ∈ fs ++ ["id"])
  | none => false

/-- Role `ρ` disallows field `n` in `_get_fields_for_role`'s
classification: a list-based role disallows everything outside its list
plus the appended `'id'`; the wildcard disallows nothing. -/
def roleDisallows (rolesMap : List (String × Allowance)) (ρ n : String) : Bool :=
  match lookupA rolesMap ρ with
  | some (.fieldList fs) => decide (n ∉ fs ++ ["id"])
  | _ => false

/-! ## mutation.py: upsert -/

/-- The session operations `Mutation.upsert` performs, in order. -/
inductive SessionOp (V : Type) where
  | add (r : List (String × V))
  | commit
  | rollback
  | close
deriving DecidableEq, Repr

deriving instance DecidableEq for Except

/-- One run of `Mutation.upsert`: the returned record or re-raised
exception, the session operations in order, and the `setattr` writes
performed. -/
structure UpsertRun (V : Type) where
  result : Except String (List (String × V))
  ops : List (SessionOp V)
  writes : List (String × V)
deriving DecidableEq, Repr

/-- The update loop of `Mutation.upsert` (mutation.py:113-116): for each
authorized field, `getattr` is compared with the new value and `setattr`
runs only on a difference.  Returns the updated record and the writes in
iteration order. -/
def applyChanges {V : Type} [DecidableEq V] (r : List (String × V)) :
    List (String × V) → List (String × V) × List (String × V)
  | [] => (r, [])
  | (f, v) :: rest =>
    if lookupA r f = some v then applyChanges r rest
    else
      let res := applyChanges (odInsert r f v) rest
      (res.1, (f, v) :: res.2)

/-- Embeds `Mutation.upsert` (mutation.py:106-123).  A record is an
attribute map; `model_cls(**data)` constructs a record holding exactly the
given fields.  `commitErr` is the outcome of `session.commit()`: `none`
for success, `some e` for a persistence failure `e`, after which the
session is rolled back and closed and `e` is re-raised (`raise e`). -/
def upsert {V : Type} [DecidableEq V] (model : Option (List (String × V)))
    (data : List (String × V)) (commitErr : Option String) : UpsertRun V :=
  match model with
  | none =>
    let m := data
    match commitErr with
    | none => ⟨.ok m, [.add m, .commit], []⟩
    | some e => ⟨.error e, [.add m, .rollback, .close], []⟩
  | some r =>
    let res := applyChanges r data
    match commitErr with
    | none => ⟨.ok res.1, [.commit], res.2⟩
    | some e => ⟨.error e, [.rollback, .close], res.2⟩

/-! ## Lemmas about the association-list primitives -/

section AssocLemmas

variable {κ α : Type}

@[simp] lemma keysOf_nil : keysOf ([] : List (κ × α)) = [] := rfl

@[simp] lemma keysOf_cons (kv : κ × α) (l : List (κ × α)) :
    keysOf (kv :: l) = kv.1 :: keysOf l := rfl

lemma lookupA_eq_none_iff [DecidableEq κ] (l : List (κ × α)) (a : κ) :
    lookupA l a = none ↔ a ∉ keysOf l := by
  induction l with
  | nil => simp [lookupA]
  | cons kv t ih =>
    obtain ⟨k, v⟩ := kv
    by_cases h : a = k
    · subst h; simp [lookupA]
    · simp [lookupA, h, ih]

lemma lookupA_isSome_iff [DecidableEq κ] (l : List (κ × α)) (a : κ) :
    (lookupA l a).isSome = true ↔ a ∈ keysOf l := by
  rw [Option.isSome_iff_ne_none]
  constructor
  · intro hne
    by_contra hmem
    exact hne ((lookupA_eq_none_iff l a).mpr hmem)
  · intro hmem hnone
    exact ((lookupA_eq_none_iff l a).mp hnone) hmem

lemma exists_lookupA_eq_some_iff [DecidableEq κ] (l : List (κ × α)) (a : κ) :
    (∃ v, lookupA l a = some v) ↔ a ∈ keysOf l := by
  rw [← lookupA_isSome_iff]
  constructor
  · rintro ⟨v, hv⟩; simp [hv]
  · intro h; exact Option.isSome_iff_exists.mp h

lemma mem_keysOf_odInsert [DecidableEq κ] (l : List (κ × α)) (k b : κ) (v : α) :
    b ∈ keysOf (odInsert l k v) ↔ b = k ∨ b ∈ keysOf l := by
  induction l with
  | nil => simp [odInsert]
  | cons kv t ih =>
    obtain ⟨k', v'⟩ := kv
    by_cases h : k = k'
    · subst h
      have he : odInsert ((k, v') :: t) k v = (k, v) :: t := by simp [odInsert]
      rw [he]
      simp only [keysOf_cons, List.mem_cons]
      tauto
    · have he : odInsert ((k', v') :: t) k v = (k', v') :: odInsert t k v := by
        simp [odInsert, h]
      rw [he]
      simp only [keysOf_cons, List.mem_cons, ih]
      tauto

lemma lookupA_odInsert_self [DecidableEq κ] (l : List (κ × α)) (k : κ) (v : α) :
    lookupA (odInsert l k v) k = some v := by
  induction l with
  | nil => simp [odInsert, lookupA]
  | cons kv t ih =>
    obtain ⟨k', v'⟩ := kv
    by_cases h : k = k'
    · subst h; simp [odInsert, lookupA]
    · simp [odInsert, lookupA, h, ih]

lemma lookupA_odInsert_ne [DecidableEq κ] (l : List (κ × α)) (k a : κ) (v : α) (h : a ≠ k) :
    lookupA (odInsert l k v) a = lookupA l a := by
  induction l with
  | nil => simp [odInsert, lookupA, h]
  | cons kv t ih =>
    obtain ⟨k', v'⟩ := kv
    by_cases hk : k = k'
    · subst hk; simp [odInsert, lookupA, h]
    · by_cases ha : a = k'
      · subst ha; simp [odInsert, lookupA, hk]
      · simp [odInsert, lookupA, hk, ha, ih]

lemma odInsert_ne_nil [DecidableEq κ] (l : List (κ × α)) (k : κ) (v : α) :
    odInsert l k v ≠ [] := by
  cases l with
  | nil => simp [odInsert]
  | cons kv t =>
    obtain ⟨k', v'⟩ := kv
    by_cases h : k = k' <;> simp [odInsert, h]

lemma dictUpdate_cons [DecidableEq κ] (d : List (κ × α)) (kv : κ × α) (t : List (κ × α)) :
    dictUpdate d (kv :: t) = dictUpdate (odInsert d kv.1 kv.2) t := rfl

lemma mem_keysOf_dictUpdate [DecidableEq κ] (d src : List (κ × α)) (a : κ) :
    a ∈ keysOf (dictUpdate d src) ↔ a ∈ keysOf d ∨ a ∈ keysOf src := by
  induction src generalizing d with
  | nil => simp [dictUpdate]
  | cons kv t ih =>
    rw [dictUpdate_cons, ih, mem_keysOf_odInsert]
    simp
    tauto

lemma keysOf_filter_keyPred (l : List (κ × α)) (q : κ → Bool) (a : κ) :
    a ∈ keysOf (l.filter (fun kv => q kv.1)) ↔ a ∈ keysOf l ∧ q a = true := by
  induction l with
  | nil => simp
  | cons kv t ih =>
    obtain ⟨k, v⟩ := kv
    by_cases h : q k = true
    · rw [List.filter_cons_of_pos (by simpa using h)]
      simp only [keysOf_cons, List.mem_cons, ih]
      constructor
      · rintro (rfl | ⟨hm, hq⟩)
        · exact ⟨Or.inl rfl, h⟩
        · exact ⟨Or.inr hm, hq⟩
      · rintro ⟨rfl | hm, hq⟩
        · exact Or.inl rfl
        · exact Or.inr ⟨hm, hq⟩
    · rw [List.filter_cons_of_neg (by simpa using h)]
      simp only [keysOf_cons, List.mem_cons, ih]
      constructor
      · rintro ⟨hm, hq⟩; exact ⟨Or.inr hm, hq⟩
      · rintro ⟨rfl | hm, hq⟩
        · exact absurd hq h
        · exact ⟨hm, hq⟩

end AssocLemmas

/-! ## The uniform required-ness computation of the scalar converters -/

lemma convertIdField_required (c : Column) (nm : Option String) (reg reg' : Registry)
    (input opt : Bool) (g : GField)
    (hok : convertIdField c nm reg input opt = .ok (g, reg')) :
    g.required = (!opt && isColumnRequired c input) := by
  unfold convertIdField at hok
  split at hok
  · exact absurd hok (by simp)
  · cases hok; rfl

lemma convertStrField_required (c : Column) (nm : Option String) (reg reg' : Registry)
    (input opt : Bool) (g : GField)
    (hok : convertStrField c nm reg input opt = .ok (g, reg')) :
    g.required = (!opt && isColumnRequired c input) := by
  unfold convertStrField at hok
  split at hok
  · exact convertIdField_required c nm reg reg' input opt g hok
  · cases hok; rfl

lemma convertIntField_required (c : Column) (nm : Option String) (reg reg' : Registry)
    (input opt : Bool) (g : GField)
    (hok : convertIntField c nm reg input opt = .ok (g, reg')) :
    g.required = (!opt && isColumnRequired c input) := by
  unfold convertIntField at hok
  split at hok
  · exact convertIdField_required c none reg reg' input opt g hok
  · cases hok; rfl

lemma convertUuidField_required (asUuid : Bool) (c : Column) (nm : Option String)
    (reg reg' : Registry) (input opt : Bool) (g : GField)
    (hok : convertUuidField asUuid c nm reg input opt = .ok (g, reg')) :
    g.required = (!opt && isColumnRequired c input) := by
  unfold convertUuidField at hok
  split at hok
  · exact convertIdField_required c nm reg reg' input opt g hok
  · split at hok
    · exact convertStrField_required c nm reg reg' input opt g hok
    · cases hok; rfl

lemma convertSimpleField_required (s : Shape) (c : Column) (nm : Option String)
    (reg reg' : Registry) (input opt : Bool) (g : GField)
    (hok : convertSimpleField s c nm reg input opt = .ok (g, reg')) :
    g.required = (!opt && isColumnRequired c input) := by
  unfold convertSimpleField at hok
  cases hok; rfl

lemma convertEnumField_required (ec : Option EnumClass) (tn : String) (opts : List String)
    (c : Column) (nm : Option String) (reg reg' : Registry) (input opt : Bool) (g : GField)
    (hok : convertEnumField ec tn opts c nm reg input opt = .ok (g, reg')) :
    g.required = (!opt && isColumnRequired c input) := by
  unfold convertEnumField at hok
  match ec with
  | none => exact absurd hok (by simp)
  | some cls =>
    simp only at hok
    cases hcache : reg.getEnum cls.name with
    | some gty => rw [hcache] at hok; cases hok; rfl
    | none => rw [hcache] at hok; cases hok; rfl

lemma convertSqlalchemyType_required (t : ColType) (c : Column) (nm : Option String)
    (reg reg' : Registry) (input opt : Bool) (g : GField)
    (hok : convertSqlalchemyType t c nm reg input opt = .ok (g, reg')) :
    g.required = (!opt && isColumnRequired c input) := by
  cases t with
  | str => exact convertStrField_required c nm reg reg' input opt g hok
  | int => exact convertIntField_required c nm reg reg' input opt g hok
  | uuid b => exact convertUuidField_required b c nm reg reg' input opt g hok
  | float => exact convertSimpleField_required _ c nm reg reg' input opt g hok
  | bool => exact convertSimpleField_required _ c nm reg reg' input opt g hok
  | datetime => exact convertSimpleField_required _ c nm reg reg' input opt g hok
  | date => exact convertSimpleField_required _ c nm reg reg' input opt g hok
  | time => exact convertSimpleField_required _ c nm reg reg' input opt g hok
  | json => exact convertSimpleField_required _ c nm reg reg' input opt g hok
  | enum ec tn opts => exact convertEnumField_required ec tn opts c nm reg reg' input opt g hok
  | array itemType =>
    simp only [convertSqlalchemyType] at hok
    cases hrec : convertSqlalchemyType itemType c nm reg input false with
    | error e => rw [hrec] at hok; exact absurd hok (by simp)
    | ok p => rw [hrec] at hok; cases hok; rfl

/-- C2.  Required-ness law of the type converter: in non-input mode a
produced scalar field is required iff the column is non-nullable; in
input mode iff the column is non-nullable and has no default; and the
optional override forces non-required regardless
(`is_column_required`, utils.py:80-92, combined with the uniform
`required=not optional_field and is_required` of every scalar converter,
converter.py:349-561). -/
theorem scalar_required_law (t : ColType) (c : Column) (nm : Option String)
    (reg reg' : Registry) (input opt : Bool) (g : GField)
    (hok : convertSqlalchemyType t c nm reg input opt = .ok (g, reg')) :
    ((input = false ∧ opt = false) → g.required = !c.nullable)
    ∧ ((input = true ∧ opt = false) → g.required = (!c.nullable && !c.hasDefault))
    ∧ (opt = true → g.required = false) := by
  have h := convertSqlalchemyType_required t c nm reg reg' input opt g hok
  refine ⟨?_, ?_, ?_⟩
  · rintro ⟨hi, ho⟩
    subst hi; subst ho
    simpa [isColumnRequired, isColumnRequiredS, SourceField.nullableAttr] using h
  · rintro ⟨hi, ho⟩
    subst hi; subst ho
    rw [h]
    simp only [isColumnRequired, isColumnRequiredS, SourceField.nullableAttr,
      SourceField.hasDefaultAttr, if_pos rfl]
    cases c.nullable <;> cases c.hasDefault <;> rfl
  · intro ho
    subst ho
    simpa using h

/-- Witness for `scalar_required_law` at a concrete non-nullable string
column in non-input mode. -/
theorem scalar_required_law_witness :
    ({ shape := .string, name := "title", required := true, description := none } : GField).required
      = !({ name := "title", colType := .str, nullable := false : Column }).nullable :=
  (scalar_required_law .str { name := "title", colType := .str, nullable := false }
      (some "title") Registry.empty Registry.empty false false
      { shape := .string, name := "title", required := true, description := none }
      (by rfl)).1 ⟨rfl, rfl⟩

/-! ## Primary-key promotion -/

lemma convertIdField_ok (c : Column) (nm : Option String) (reg : Registry)
    (input opt : Bool) (h : input = true ∨ c.nullable = false) :
    convertIdField c nm reg input opt =
      .ok ({ shape := .id, name := nm.getD c.name,
             required := !opt && isColumnRequired c input,
             description := c.doc }, reg) := by
  unfold convertIdField
  rcases h with h | h
  · subst h; simp
  · cases hi : input with
    | true => simp
    | false =>
      have : isColumnRequired c false = true := by
        simp [isColumnRequired, isColumnRequiredS, SourceField.nullableAttr, h]
      simp [this]

/-- C3.  Primary-key promotion: a string, integer or UUID column whose
`primary_key` flag is set converts to an identifier (ID) field, not its
native scalar shape, when no downstream optional override applies
(converter.py:349-447, 372-396).  The `input = true ∨ nullable = false`
hypothesis is the converter's own `assert input_attributes or
is_required` guard (converter.py:355). -/
theorem primary_key_promotion (c : Column) (nm : Option String) (reg : Registry)
    (input : Bool) (hpk : c.primaryKey = true)
    (hkind : c.colType = .str ∨ c.colType = .int ∨ (∃ b, c.colType = .uuid b))
    (hassert : input = true ∨ c.nullable = false) :
    ∃ g reg', convertSqlalchemyType c.colType c nm reg input false = .ok (g, reg')
      ∧ g.shape = .id := by
  rcases hkind with h | h | ⟨b, h⟩ <;> rw [h]
  · have heq : convertSqlalchemyType .str c nm reg input false
        = .ok ({ shape := .id, name := nm.getD c.name,
                 required := !false && isColumnRequired c input,
                 description := c.doc }, reg) := by
      show convertStrField c nm reg input false = _
      unfold convertStrField
      rw [if_pos hpk, convertIdField_ok c nm reg input false hassert]
    exact ⟨_, _, heq, rfl⟩
  · have heq : convertSqlalchemyType .int c nm reg input false
        = .ok ({ shape := .id, name := Option.getD none c.name,
                 required := !false && isColumnRequired c input,
                 description := c.doc }, reg) := by
      show convertIntField c nm reg input false = _
      unfold convertIntField
      rw [if_pos hpk, convertIdField_ok c none reg input false hassert]
    exact ⟨_, _, heq, rfl⟩
  · have heq : convertSqlalchemyType (.uuid b) c nm reg input false
        = .ok ({ shape := .id, name := nm.getD c.name,
                 required := !false && isColumnRequired c input,
                 description := c.doc }, reg) := by
      show convertUuidField b c nm reg input false = _
      unfold convertUuidField
      rw [if_pos hpk, convertIdField_ok c nm reg input false hassert]
    exact ⟨_, _, heq, rfl⟩

/-- Witness for `primary_key_promotion` at a concrete integer primary-key
column. -/
theorem primary_key_promotion_witness :
    ∃ g reg', convertSqlalchemyType
        ({ name := "id", colType := .int, nullable := false, primaryKey := true : Column }).colType
        { name := "id", colType := .int, nullable := false, primaryKey := true }
        (some "id") Registry.empty false false = .ok (g, reg') ∧ g.shape = .id :=
  primary_key_promotion { name := "id", colType := .int, nullable := false, primaryKey := true }
    (some "id") Registry.empty false rfl (Or.inr (Or.inl rfl)) (Or.inr rfl)

/-! ## Enumeration conversion -/

/-- An enum column declared from plain string options, carrying no native
`enum_class` — the configuration the string-options branch of
`convert_enum_field` is meant to handle. -/
def enumOptionsColumn : Column :=
  { name := "color", colType := .enum none "color_kind" ["red", "green"] }

/-- C6.  Converting an enum column with no native enum class raises
AttributeError: `convert_enum_field` (converter.py:543-544) evaluates
`registry.get_enum(enum_class.__name__)` before checking `enum_class`
for `None`, so the `# Nope, just a list of string options` synthesis
branch (converter.py:550-553) is unreachable. -/
theorem convert_enum_field_no_class_raises :
    convertSqlalchemyField enumOptionsColumn (some "color") Registry.empty false false
      = .error .attributeError := by rfl

/-! ## Input-mode to-many relationship conversion -/

/-- C7.  Every input-mode conversion of a to-many relationship raises
AttributeError: `convert_sqlalchemy_model_to_scheme` (converter.py:213)
immediately calls `registry.get_type_for_relationship_input`, which the
`Registry` class (registry.py:1-41) does not define, so the minimal
primary-key input type is never looked up or synthesized. -/
theorem input_to_many_relationship_raises (r : Relationship) (nm : Option String)
    (reg : Registry) (hdir : r.direction ≠ .manytoone) (hul : r.uselist = true) :
    convertSqlalchemyRelationship r nm reg true = .error .attributeError := by
  unfold convertSqlalchemyRelationship
  simp [hul, hdir, convertSqlalchemyModelToScheme]

/-- A concrete to-many relationship (for the C7 witness). -/
def tagsRelationship : Relationship :=
  { key := "tags", direction := .manytomany, uselist := true,
    targetModelName := "Tag", userDefinedForeignKeys := [] }

/-- Witness for `input_to_many_relationship_raises` at a concrete
many-to-many relationship. -/
theorem input_to_many_relationship_raises_witness :
    convertSqlalchemyRelationship tagsRelationship (some "tags") Registry.empty true
      = .error .attributeError :=
  input_to_many_relationship_raises tagsRelationship (some "tags") Registry.empty
    (by decide) rfl

/-! ## Deferred relationship resolution against an unregistered target -/

/-- C10.  The deferred `dynamic_type` closure of a non-input relationship
field resolves to `None` — rather than raising — whenever the target
model has no output type registered at evaluation time
(converter.py:263-266). -/
theorem dynamic_relationship_unregistered_target (reg : Registry) (r : Relationship)
    (cff : Relationship → Registry → GField)
    (h : reg.getTypeForModel r.targetModelName = none) :
    relationshipDynamicType reg r cff = none := by
  unfold relationshipDynamicType
  rw [h]

/-- A concrete to-one relationship whose target model is unregistered
(for the C10 witness). -/
def authorRelationship : Relationship :=
  { key := "author", direction := .manytoone, uselist := false,
    targetModelName := "Author",
    userDefinedForeignKeys := [{ name := "author_id", colType := .str }] }

/-- Witness for `dynamic_relationship_unregistered_target` on an empty
registry. -/
theorem dynamic_relationship_unregistered_target_witness :
    relationshipDynamicType Registry.empty authorRelationship defaultConnectionFieldFactory
      = none :=
  dynamic_relationship_unregistered_target Registry.empty authorRelationship
    defaultConnectionFieldFactory rfl

/-! ## The roles-map mutation of `_get_fields_for_role` -/

/-- C9.  When a role's allowance is an explicit field list,
`_get_fields_for_role` (mutation.py:125-141) appends `'id'` to the
caller-supplied list object before classifying, so a supplied `'id'`
field is always allowed for that role, and the shared roles map comes
out of every invocation with that role's allowance list grown by one
entry — it is mutated configuration, not read-only. -/
theorem get_fields_for_role_mutates_roles_map {V : Type} [DecidableEq V]
    (role : String) (fs : List String) (rolesMap : List (String × Allowance))
    (data : List (String × Option V))
    (hne : rolesMap ≠ [])
    (hl : lookupA rolesMap role = some (.fieldList fs)) :
    (∀ v : Option V, ("id", v) ∈ data → ("id", v) ∈ (getFieldsForRole role rolesMap data).1)
    ∧ lookupA (getFieldsForRole role rolesMap data).2.2 role
        = some (.fieldList (fs ++ ["id"]))
    ∧ fs ++ ["id"] ≠ fs := by
  have hie : rolesMap.isEmpty = false := by
    cases rolesMap
    · exact absurd rfl hne
    · rfl
  have hstep : getFieldsForRole role rolesMap data
      = (data.filter (fun kv => decide (kv.1 ∈ fs ++ ["id"])),
         data.filter (fun kv => decide (kv.1 ∉ fs ++ ["id"])),
         odInsert rolesMap role (.fieldList (fs ++ ["id"]))) := by
    unfold getFieldsForRole
    rw [hie, hl]
    rfl
  rw [hstep]
  refine ⟨?_, ?_, ?_⟩
  · intro v hv
    exact List.mem_filter.mpr ⟨hv, by simp⟩
  · exact lookupA_odInsert_self rolesMap role (.fieldList (fs ++ ["id"]))
  · intro h
    have := congrArg List.length h
    simp at this

/-- Witness for `get_fields_for_role_mutates_roles_map` at the concrete
map `{"editor": ["name"]}` and data `{"id": "1"}`. -/
theorem get_fields_for_role_mutates_roles_map_witness :
    (("id", some "1") ∈
        (getFieldsForRole (V := String) "editor" [("editor", .fieldList ["name"])]
          [("id", some "1")]).1)
    ∧ lookupA (getFieldsForRole (V := String) "editor" [("editor", .fieldList ["name"])]
          [("id", some "1")]).2.2 "editor"
        = some (.fieldList (["name"] ++ ["id"])) := by
  have h := get_fields_for_role_mutates_roles_map (V := String) "editor" ["name"]
    [("editor", .fieldList ["name"])] [("id", some "1")] (by decide) (by rfl)
  exact ⟨h.1 (some "1") (by decide), h.2.1⟩

/-! ## Upsert -/

/-- The writes performed by the update loop of `Mutation.upsert` are
exactly the fields whose new value differs from the record's current
value, when the authorized field names are distinct (as dict keys are). -/
lemma applyChanges_writes {V : Type} [DecidableEq V] :
    ∀ (data : List (String × V)) (r : List (String × V)),
      (keysOf data).Nodup →
      (applyChanges r data).2
        = data.filter (fun p => decide (lookupA r p.1 ≠ some p.2))
  | [], r, _ => rfl
  | (f, v) :: rest, r, hnd => by
    have hf : f ∉ keysOf rest := by
      simpa using (List.nodup_cons.mp (by simpa using hnd)).1
    have hrest : (keysOf rest).Nodup := by
      simpa using (List.nodup_cons.mp (by simpa using hnd)).2
    have hEq : applyChanges r ((f, v) :: rest)
        = if lookupA r f = some v then applyChanges r rest
          else ((applyChanges (odInsert r f v) rest).1,
                (f, v) :: (applyChanges (odInsert r f v) rest).2) := rfl
    by_cases h : lookupA r f = some v
    · rw [hEq, if_pos h, applyChanges_writes rest r hrest]
      rw [List.filter_cons_of_neg (by simp [h])]
    · have hL : (applyChanges r ((f, v) :: rest)).2
          = (f, v) :: (applyChanges (odInsert r f v) rest).2 := by
        rw [hEq, if_neg h]
      rw [hL, applyChanges_writes rest (odInsert r f v) hrest]
      have hcong : rest.filter (fun p => decide (lookupA (odInsert r f v) p.1 ≠ some p.2))
          = rest.filter (fun p => decide (lookupA r p.1 ≠ some p.2)) := by
        apply List.filter_congr
        intro p hp
        have hpf : p.1 ≠ f := by
          intro hpf
          exact hf (hpf ▸ (List.mem_map.mpr ⟨p, hp, rfl⟩))
        rw [lookupA_odInsert_ne r f p.1 v hpf]
      rw [hcong, List.filter_cons_of_pos (by simp [h])]

/-- C5.  `Mutation.upsert` (mutation.py:106-123): with no existing record
it constructs one from exactly the authorized field set and adds it; with
an existing record it `setattr`s exactly the fields whose new value
differs from the current value (an unchanged value causes no write) and
only commits; and when the commit raises, the session is rolled back and
then closed before the original exception is re-raised.  The hypotheses
restrict to dict-shaped input (distinct field names) over attributes the
record actually has, matching `getattr`'s domain. -/
theorem upsert_update_vs_create {V : Type} [DecidableEq V]
    (r data : List (String × V)) (e : String)
    (hnd : (keysOf data).Nodup)
    (_hattrs : ∀ p ∈ data, p.1 ∈ keysOf r) :
    (upsert none data none = ⟨.ok data, [.add data, .commit], []⟩)
    ∧ ((upsert (some r) data none).writes
        = data.filter (fun p => decide (lookupA r p.1 ≠ some p.2)))
    ∧ ((upsert (some r) data none).ops = [.commit])
    ∧ (∀ m : Option (List (String × V)),
        (upsert m data (some e)).result = .error e
        ∧ ∃ pre, (upsert m data (some e)).ops = pre ++ [.rollback, .close]) := by
  refine ⟨rfl, ?_, rfl, ?_⟩
  · show (applyChanges r data).2 = _
    exact applyChanges_writes data r hnd
  · intro m
    cases m with
    | none => exact ⟨rfl, [.add data], rfl⟩
    | some r' => exact ⟨rfl, [], rfl⟩

/-- Witness for `upsert_update_vs_create`: stored record
`{id: 42, name: "old"}`; the unchanged input `name="old"` produces no
write, while `name="new"` produces exactly one. -/
theorem upsert_update_vs_create_witness :
    (upsert (V := String) (some [("id", "42"), ("name", "old")]) [("name", "old")] none).writes
      = []
    ∧ (upsert (V := String) (some [("id", "42"), ("name", "old")]) [("name", "new")] none).writes
      = [("name", "new")] := by
  constructor
  · have h := (upsert_update_vs_create (V := String) [("id", "42"), ("name", "old")]
      [("name", "old")] "boom" (by decide) (by decide)).2.1
    rw [h]
    decide
  · have h := (upsert_update_vs_create (V := String) [("id", "42"), ("name", "old")]
      [("name", "new")] "boom" (by decide) (by decide)).2.1
    rw [h]
    decide

/-! ## Attributes-bundle memoization.
The cache key `convert_model_to_attributes` resolves is
`model.__name__ + 'Attribute'` (or the caller-supplied name) with no
input-mode discriminator, and both `ObjectType` (plain mode) and
`InputObjectType` (input mode) in types.py call it without an explicit
`attributes_name`, so the two modes hit the same registry entry. -/

/-- A non-nullable column with a server default: its required flag is
`true` under plain-mode classification but `false` under input-mode
classification, making the bundle's construction mode observable. -/
def defaultedColumn : Column :=
  { name := "x", colType := .str, nullable := false, hasDefault := true }

/-- A one-column model for exercising the bundle cache. -/
def defaultedModel : Model :=
  { name := "M", columns := [defaultedColumn], relationships := [] }

/-- The field the plain-mode (non-input) pass builds for
`defaultedColumn`: required, because the column is non-nullable. -/
def plainXField : GField :=
  { shape := .string, name := "x", required := true, description := none }

/-- The bundle the first (plain-mode) call constructs for
`defaultedModel`. -/
def defaultedBundle : AttributesBundle :=
  { name := "MAttribute", fields := [("x", plainXField)] }

/-- The registry state after the first (plain-mode) call. -/
def defaultedRegistry : Registry :=
  Registry.empty.registerAttributes defaultedBundle

/-- C1 counterexample.  A plain-mode call builds and registers the bundle
under the key `"MAttribute"`; a subsequent input-mode call for the same
model resolves the same key and returns that very plain-mode bundle — the
two modes share one bundle, whose `x` field stays required even though
input-mode classification of the column is non-required.  This refutes
the claim that the cache key carries a mode discriminator keeping
plain-mode and input-mode bundles apart. -/
theorem convert_model_to_attributes_modes_share_bundle :
    convertModelToAttributes defaultedModel Registry.empty none false [] [] []
      = .ok (defaultedBundle, defaultedRegistry)
    ∧ convertModelToAttributes defaultedModel defaultedRegistry none true [] [] []
      = .ok (defaultedBundle, defaultedRegistry)
    ∧ plainXField.required = true
    ∧ isColumnRequired defaultedColumn true = false := by
  refine ⟨?_, ?_, rfl, rfl⟩ <;> rfl

/-- C1 (amended).  Bundle memoization is idempotent per resolved bundle
name: once the registry holds a bundle under the resolved name
(`attributes_name` or `model.__name__ + 'Attribute'`), every later call
with that name — in either mode — returns the identical cached bundle
and leaves the registry untouched, without reclassifying
(converter.py:166-181, registry.py:25-29). -/
theorem convert_model_to_attributes_memoized (m : Model) (reg : Registry)
    (attributesName : Option String) (inputAttributes : Bool)
    (typeCast : List (String × String)) (onlyFields excludeFields : List String)
    (b : AttributesBundle)
    (h : reg.getAttributesForModel (resolvedAttributesName m attributesName) = some b) :
    convertModelToAttributes m reg attributesName inputAttributes typeCast
      onlyFields excludeFields = .ok (b, reg) := by
  unfold convertModelToAttributes
  dsimp only
  rw [h]

/-- Witness for `convert_model_to_attributes_memoized`: the input-mode
call against the registry populated by the plain-mode run returns the
cached plain-mode bundle. -/
theorem convert_model_to_attributes_memoized_witness :
    convertModelToAttributes defaultedModel defaultedRegistry none true [] [] []
      = .ok (defaultedBundle, defaultedRegistry) :=
  convert_model_to_attributes_memoized defaultedModel defaultedRegistry none true [] [] []
    defaultedBundle (by rfl)

/-! ## Relationship foreign-key exclusion in `construct_fields` -/

/-- The foreign-key name `construct_fields` records for a relationship
item (converter.py:98-103): the first user-defined foreign-key column's
name, else the relationship's own name. -/
def fkNameOf (r : Relationship) : String :=
  match r.userDefinedForeignKeys.head? with
  | some fkc => fkc.name
  | none => r.key

/-- In non-input mode a relationship item always converts successfully
(to a `graphene.Dynamic`, or to the type-cast field) and leaves the
registry unchanged. -/
lemma convertItem_rel_nonInput (tc : List (String × String)) (reg : Registry)
    (name : String) (r : Relationship) :
    ∃ g, convertItem tc false reg ⟨name, .rel r⟩ = .ok (g, reg) := by
  cases h : lookupA tc name with
  | some tag =>
    refine ⟨{ shape := .cast tag, name := name,
              required := isColumnRequiredS (.rel r) false,
              description := (SourceField.rel r).docAttr }, ?_⟩
    unfold convertItem
    dsimp only
    rw [h]
  | none =>
    refine ⟨{ shape := .dynamic, name := name, required := false }, ?_⟩
    unfold convertItem
    dsimp only
    rw [h]
    rfl

/-- Stepping `constructFieldsAux` over a relationship item whose kind is
requested: the item is bound under its name, its foreign-key name is
recorded, and the loop continues. -/
lemma constructFieldsAux_cons_rel (ft : List FieldKind) (tc : List (String × String))
    (hft : FieldKind.relationship ∈ ft) (name : String) (r : Relationship)
    (rest : List IterItem) (fields : List (String × GField)) (relKeys : List String)
    (reg : Registry) (g : GField)
    (hconv : convertItem tc false reg ⟨name, .rel r⟩ = .ok (g, reg)) :
    constructFieldsAux ft tc false (⟨name, .rel r⟩ :: rest) fields relKeys reg
      = constructFieldsAux ft tc false rest (odInsert fields name g)
          (relKeys ++ [match r.userDefinedForeignKeys.head? with
                       | some fkc => fkc.name
                       | none => name]) reg := by
  have hkind : (⟨name, .rel r⟩ : IterItem).kind = .relationship := rfl
  show (if (⟨name, .rel r⟩ : IterItem).kind ∈ ft then
          match convertItem tc false reg ⟨name, .rel r⟩ with
          | .error e => .error e
          | .ok (g, reg') =>
            constructFieldsAux ft tc false rest (odInsert fields name g)
              (relKeys ++ [match r.userDefinedForeignKeys.head? with
                           | some fkc => fkc.name
                           | none => name]) reg'
        else constructFieldsAux ft tc false rest fields relKeys reg) = _
  rw [hkind, if_pos hft, hconv]

/-- Stepping `constructFieldsAux` over an item whose kind is not
requested: the item is skipped entirely (in particular, an unwanted
relationship records no foreign-key exclusion). -/
lemma constructFieldsAux_cons_skipKind (ft : List FieldKind) (tc : List (String × String))
    (input : Bool) (it : IterItem) (rest : List IterItem)
    (fields : List (String × GField)) (relKeys : List String) (reg : Registry)
    (hkind : it.kind ∉ ft) :
    constructFieldsAux ft tc input (it :: rest) fields relKeys reg
      = constructFieldsAux ft tc input rest fields relKeys reg := by
  cases it with
  | mk name src =>
    cases src with
    | col c =>
      show (if (⟨name, .col c⟩ : IterItem).kind ∈ ft then _ else
        constructFieldsAux ft tc input rest fields relKeys reg) = _
      rw [if_neg hkind]
    | rel r =>
      show (if (⟨name, .rel r⟩ : IterItem).kind ∈ ft then _ else
        constructFieldsAux ft tc input rest fields relKeys reg) = _
      rw [if_neg hkind]

/-- Stepping `constructFieldsAux` over a scalar item whose name is in the
per-call relationship exclusion list: the column is skipped. -/
lemma constructFieldsAux_cons_col_excluded (ft : List FieldKind) (tc : List (String × String))
    (input : Bool) (name : String) (c : Column) (rest : List IterItem)
    (fields : List (String × GField)) (relKeys : List String) (reg : Registry)
    (hft : FieldKind.scalar ∈ ft) (hmem : name ∈ relKeys) :
    constructFieldsAux ft tc input (⟨name, .col c⟩ :: rest) fields relKeys reg
      = constructFieldsAux ft tc input rest fields relKeys reg := by
  have hkind : (⟨name, .col c⟩ : IterItem).kind = .scalar := rfl
  show (if (⟨name, .col c⟩ : IterItem).kind ∈ ft then
          if name ∈ relKeys then constructFieldsAux ft tc input rest fields relKeys reg
          else match convertItem tc input reg ⟨name, .col c⟩ with
            | .error e => .error e
            | .ok (g, reg') =>
              constructFieldsAux ft tc input rest (odInsert fields name g) relKeys reg'
        else constructFieldsAux ft tc input rest fields relKeys reg) = _
  rw [hkind, if_pos hft, if_pos hmem]

/-- Stepping `constructFieldsAux` over a converted scalar item. -/
lemma constructFieldsAux_cons_col_conv (ft : List FieldKind) (tc : List (String × String))
    (input : Bool) (name : String) (c : Column) (rest : List IterItem)
    (fields : List (String × GField)) (relKeys : List String) (reg reg₂ : Registry)
    (g : GField) (hft : FieldKind.scalar ∈ ft) (hmem : name ∉ relKeys)
    (hconv : convertItem tc input reg ⟨name, .col c⟩ = .ok (g, reg₂)) :
    constructFieldsAux ft tc input (⟨name, .col c⟩ :: rest) fields relKeys reg
      = constructFieldsAux ft tc input rest (odInsert fields name g) relKeys reg₂ := by
  have hkind : (⟨name, .col c⟩ : IterItem).kind = .scalar := rfl
  show (if (⟨name, .col c⟩ : IterItem).kind ∈ ft then
          if name ∈ relKeys then constructFieldsAux ft tc input rest fields relKeys reg
          else match convertItem tc input reg ⟨name, .col c⟩ with
            | .error e => .error e
            | .ok (g, reg') =>
              constructFieldsAux ft tc input rest (odInsert fields name g) relKeys reg'
        else constructFieldsAux ft tc input rest fields relKeys reg) = _
  rw [hkind, if_pos hft, if_neg hmem, hconv]

/-- Stepping `constructFieldsAux` over a scalar item whose conversion
raises: the whole pass raises. -/
lemma constructFieldsAux_cons_col_err (ft : List FieldKind) (tc : List (String × String))
    (input : Bool) (name : String) (c : Column) (rest : List IterItem)
    (fields : List (String × GField)) (relKeys : List String) (reg : Registry)
    (e : ConvErr) (hft : FieldKind.scalar ∈ ft) (hmem : name ∉ relKeys)
    (hconv : convertItem tc input reg ⟨name, .col c⟩ = .error e) :
    constructFieldsAux ft tc input (⟨name, .col c⟩ :: rest) fields relKeys reg = .error e := by
  have hkind : (⟨name, .col c⟩ : IterItem).kind = .scalar := rfl
  show (if (⟨name, .col c⟩ : IterItem).kind ∈ ft then
          if name ∈ relKeys then constructFieldsAux ft tc input rest fields relKeys reg
          else match convertItem tc input reg ⟨name, .col c⟩ with
            | .error e => .error e
            | .ok (g, reg') =>
              constructFieldsAux ft tc input rest (odInsert fields name g) relKeys reg'
        else constructFieldsAux ft tc input rest fields relKeys reg) = _
  rw [hkind, if_pos hft, if_neg hmem, hconv]

/-- Phase 1 of `construct_fields` over the classifier's output: processing
the leading relationship items (non-input mode, relationship kind
requested) binds exactly the relationship names into the field dict and
records exactly their foreign-key names, then continues with the
remaining items against the unchanged registry. -/
lemma constructFieldsAux_relPhase (ft : List FieldKind) (tc : List (String × String))
    (hft : FieldKind.relationship ∈ ft) :
    ∀ (rs : List Relationship) (B : List IterItem) (fields : List (String × GField))
      (relKeys : List String) (reg : Registry),
    ∃ fields' relKeys',
      constructFieldsAux ft tc false ((rs.map fun r => ⟨r.key, .rel r⟩) ++ B) fields relKeys reg
        = constructFieldsAux ft tc false B fields' relKeys' reg
      ∧ (∀ n, n ∈ keysOf fields' ↔ n ∈ keysOf fields ∨ n ∈ rs.map Relationship.key)
      ∧ (∀ s, s ∈ relKeys' ↔ s ∈ relKeys ∨ s ∈ rs.map fkNameOf)
  | [], B, fields, relKeys, reg => ⟨fields, relKeys, by simp⟩
  | r :: rest, B, fields, relKeys, reg => by
    obtain ⟨g, hconv⟩ := convertItem_rel_nonInput tc reg r.key r
    obtain ⟨fields', relKeys', heq, hfs, hks⟩ :=
      constructFieldsAux_relPhase ft tc hft rest B (odInsert fields r.key g)
        (relKeys ++ [fkNameOf r]) reg
    refine ⟨fields', relKeys', ?_, ?_, ?_⟩
    · rw [List.map_cons, List.cons_append]
      rw [constructFieldsAux_cons_rel ft tc hft r.key r _ fields relKeys reg g hconv]
      exact heq
    · intro n
      rw [hfs n, mem_keysOf_odInsert]
      simp only [List.map_cons, List.mem_cons]
      tauto
    · intro s
      rw [hks s, List.mem_append]
      simp only [List.map_cons, List.mem_cons, List.mem_singleton]
      tauto

/-- Phase 2 of `construct_fields`: while processing the trailing scalar
items, any name already recorded in the relationship exclusion list is
never bound, and previously bound names survive. -/
lemma constructFieldsAux_colPhase (ft : List FieldKind) (tc : List (String × String))
    (input : Bool) (F : String) :
    ∀ (cols : List Column) (fields : List (String × GField)) (relKeys : List String)
      (reg reg' : Registry) (res : List (String × GField)),
      F ∈ relKeys → F ∉ keysOf fields →
      constructFieldsAux ft tc input (cols.map fun c => ⟨c.name, .col c⟩) fields relKeys reg
        = .ok (res, reg') →
      F ∉ keysOf res ∧ (∀ n, n ∈ keysOf fields → n ∈ keysOf res)
  | [], fields, relKeys, reg, reg', res, _, hFf, hok => by
    have : fields = res := by
      have h := hok
      simp only [List.map_nil, constructFieldsAux] at h
      cases h
      rfl
    subst this
    exact ⟨hFf, fun n hn => hn⟩
  | c :: rest, fields, relKeys, reg, reg', res, hFk, hFf, hok => by
    rw [List.map_cons] at hok
    by_cases hkind : FieldKind.scalar ∈ ft
    · by_cases hmem : c.name ∈ relKeys
      · rw [constructFieldsAux_cons_col_excluded ft tc input c.name c _ fields relKeys reg
          hkind hmem] at hok
        exact constructFieldsAux_colPhase ft tc input F rest fields relKeys reg reg' res
          hFk hFf hok
      · cases hconv : convertItem tc input reg ⟨c.name, .col c⟩ with
        | error e =>
          rw [constructFieldsAux_cons_col_err ft tc input c.name c _ fields relKeys reg e
            hkind hmem hconv] at hok
          exact absurd hok (by simp)
        | ok p =>
          obtain ⟨g, reg₂⟩ := p
          rw [constructFieldsAux_cons_col_conv ft tc input c.name c _ fields relKeys reg reg₂ g
            hkind hmem hconv] at hok
          have hne : F ≠ c.name := fun h => hmem (h ▸ hFk)
          have hFf' : F ∉ keysOf (odInsert fields c.name g) := by
            rw [mem_keysOf_odInsert]
            rintro (h | h)
            · exact hne h
            · exact hFf h
          obtain ⟨h1, h2⟩ := constructFieldsAux_colPhase ft tc input F rest
            (odInsert fields c.name g) relKeys reg₂ reg' res hFk hFf' hok
          refine ⟨h1, fun n hn => h2 n ?_⟩
          rw [mem_keysOf_odInsert]
          exact Or.inr hn
    · have hk : (⟨c.name, .col c⟩ : IterItem).kind ∉ ft := hkind
      rw [constructFieldsAux_cons_skipKind ft tc input ⟨c.name, .col c⟩ _ fields relKeys reg
        hk] at hok
      exact constructFieldsAux_colPhase ft tc input F rest fields relKeys reg reg' res
        hFk hFf hok

/-- C8.  Relationship foreign-key exclusion: in a non-input
`construct_fields` pass that requests relationship fields, a to-one
relationship `r` backed by foreign-key column `fc` yields a field bound
under the relationship's name, while no independent scalar field named
after the foreign-key column appears — its name is recorded in the
per-call exclusion list while relationships are processed (which the
classifier yields first) and every scalar column carrying it is skipped
(converter.py:44-57, 93-106).  `hFrel` rules out a distinct relationship
attribute coincidentally named like the foreign-key column, which a
SQLAlchemy mapper would reject as a duplicate attribute anyway. -/
theorem relationship_foreign_key_exclusion
    (m : Model) (r : Relationship) (fc : Column)
    (ft : List FieldKind) (tc : List (String × String))
    (onlyFields excludeFields : List String) (reg reg' : Registry)
    (res : List (String × GField))
    (hr : r ∈ m.relationships)
    (hfk : r.userDefinedForeignKeys.head? = some fc)
    (_hdir : r.direction = .manytoone ∨ r.uselist = false)
    (hft : FieldKind.relationship ∈ ft)
    (hskip : skipField onlyFields excludeFields r.key = false)
    (hFrel : ∀ r' ∈ m.relationships, r'.key ≠ fc.name)
    (hok : constructFields m reg onlyFields excludeFields ft tc false = .ok (res, reg')) :
    (∃ g, lookupA res r.key = some g) ∧ lookupA res fc.name = none := by
  unfold constructFields iterFields at hok
  set relsF := m.relationships.filter
    (fun x => decide (skipField onlyFields excludeFields x.key = false)) with hrelsF
  set colsF := m.columns.filter
    (fun c => decide (skipField onlyFields excludeFields c.name = false)) with hcolsF
  obtain ⟨fields', relKeys', heq, hfs, hks⟩ :=
    constructFieldsAux_relPhase ft tc hft relsF (colsF.map fun c => ⟨c.name, .col c⟩) [] [] reg
  rw [heq] at hok
  have hrF : r ∈ relsF := by
    rw [hrelsF]
    exact List.mem_filter.mpr ⟨hr, by simp [hskip]⟩
  have hrkey : r.key ∈ keysOf fields' := by
    rw [hfs]
    exact Or.inr (List.mem_map.mpr ⟨r, hrF, rfl⟩)
  have hfcK : fc.name ∈ relKeys' := by
    rw [hks]
    refine Or.inr (List.mem_map.mpr ⟨r, hrF, ?_⟩)
    unfold fkNameOf
    rw [hfk]
  have hfcF : fc.name ∉ keysOf fields' := by
    rw [hfs]
    rintro (h | h)
    · simp at h
    · obtain ⟨r', hr', hr'key⟩ := List.mem_map.mp h
      exact hFrel r' (List.mem_of_mem_filter hr') hr'key
  obtain ⟨hnotin, hmono⟩ := constructFieldsAux_colPhase ft tc false fc.name colsF
    fields' relKeys' reg reg' res hfcK hfcF hok
  constructor
  · exact (exists_lookupA_eq_some_iff res r.key).mpr (hmono r.key hrkey)
  · exact (lookupA_eq_none_iff res fc.name).mpr hnotin

/-- The foreign-key column backing `authorRelationship`. -/
def bookFkColumn : Column := { name := "author_id", colType := .str }

/-- A book model with a to-one `author` relationship backed by the
`author_id` column (for the C8 witness). -/
def bookModel : Model :=
  { name := "Book",
    columns := [{ name := "id", colType := .int, nullable := false, primaryKey := true },
                bookFkColumn,
                { name := "title", colType := .str, nullable := false }],
    relationships := [authorRelationship] }

/-- The field set the non-input pass assembles for `bookModel`: the
`author` relationship appears, the `author_id` scalar does not. -/
def bookFields : List (String × GField) :=
  [("author", { shape := .dynamic, name := "author", required := false }),
   ("id", { shape := .id, name := "id", required := true }),
   ("title", { shape := .string, name := "title", required := true })]

/-- Witness for `relationship_foreign_key_exclusion` on `bookModel`. -/
theorem relationship_foreign_key_exclusion_witness :
    (∃ g, lookupA bookFields "author" = some g) ∧ lookupA bookFields "author_id" = none :=
  relationship_foreign_key_exclusion bookModel authorRelationship bookFkColumn
    [.scalar, .relationship] [] [] [] Registry.empty Registry.empty bookFields
    (by decide) rfl (Or.inl rfl) (by decide) rfl (by decide) (by decide)

/-! ## Authorization-boundary lemmas -/

/-- The key sets `_get_fields_for_role` classifies, characterized against
the original roles map, for any current map that still agrees with it on
the queried role; the call perturbs no other role's entry and never
empties the map. -/
lemma getFieldsForRole_mem_spec {V : Type} [DecidableEq V] (role : String)
    (rm rolesMap : List (String × Allowance)) (data : List (String × Option V))
    (hrm : rm ≠ []) (hagree : lookupA rm role = lookupA rolesMap role) :
    (∀ n, n ∈ keysOf (getFieldsForRole role rm data).1 ↔
        (n ∈ keysOf data ∧ roleAllows rolesMap role n = true))
    ∧ (∀ n, n ∈ keysOf (getFieldsForRole role rm data).2.1 ↔
        (n ∈ keysOf data ∧ roleDisallows rolesMap role n = true))
    ∧ (∀ ρ, ρ ≠ role → lookupA (getFieldsForRole role rm data).2.2 ρ = lookupA rm ρ)
    ∧ (getFieldsForRole role rm data).2.2 ≠ [] := by
  have hie : rm.isEmpty = false := by
    cases rm
    · exact absurd rfl hrm
    · rfl
  cases hw : lookupA rm role with
  | none =>
    have hR : lookupA rolesMap role = none := by rw [← hagree]; exact hw
    have hstep : getFieldsForRole role rm data = ([], [], rm) := by
      unfold getFieldsForRole
      rw [hie, hw]
      rfl
    rw [hstep]
    refine ⟨?_, ?_, fun ρ _ => rfl, hrm⟩
    · intro n; simp [roleAllows, hR]
    · intro n; simp [roleDisallows, hR]
  | some w =>
    have hR : lookupA rolesMap role = some w := by rw [← hagree]; exact hw
    cases w with
    | star =>
      have hstep : getFieldsForRole role rm data = (data, [], rm) := by
        unfold getFieldsForRole
        rw [hie, hw]
        rfl
      rw [hstep]
      refine ⟨?_, ?_, fun ρ _ => rfl, hrm⟩
      · intro n; simp [roleAllows, hR]
      · intro n; simp [roleDisallows, hR]
    | fieldList fs =>
      have hstep : getFieldsForRole role rm data
          = (data.filter (fun kv => decide (kv.1 ∈ fs ++ ["id"])),
             data.filter (fun kv => decide (kv.1 ∉ fs ++ ["id"])),
             odInsert rm role (.fieldList (fs ++ ["id"]))) := by
        unfold getFieldsForRole
        rw [hie, hw]
        rfl
      rw [hstep]
      refine ⟨?_, ?_, ?_, odInsert_ne_nil rm role _⟩
      · intro n
        dsimp only
        have h1 : n ∈ keysOf (data.filter (fun kv => decide (kv.1 ∈ fs ++ ["id"])))
            ↔ (n ∈ keysOf data ∧ decide (n ∈ fs ++ ["id"]) = true) :=
          keysOf_filter_keyPred data (fun x => decide (x ∈ fs ++ ["id"])) n
        rw [h1]
        simp [roleAllows, hR]
      · intro n
        dsimp only
        have h1 : n ∈ keysOf (data.filter (fun kv => decide (kv.1 ∉ fs ++ ["id"])))
            ↔ (n ∈ keysOf data ∧ decide (n ∉ fs ++ ["id"]) = true) :=
          keysOf_filter_keyPred data (fun x => decide (x ∉ fs ++ ["id"])) n
        rw [h1]
        simp [roleDisallows, hR]
      · intro ρ hρ
        dsimp only
        exact lookupA_odInsert_ne rm role ρ _ hρ

/-- The aggregated allowed/disallowed key sets of the authorization fold:
a field name is aggregated as allowed (disallowed) exactly when it is
supplied and some processed role allows (disallows) it — the in-flight
`'id'`-append mutations never disturb a yet-unprocessed role's entry. -/
lemma authFold_mem_spec {V : Type} [DecidableEq V] (data : List (String × Option V))
    (rolesMap : List (String × Allowance)) :
    ∀ (roles : List String) (al dis : List (String × Option V))
      (rm : List (String × Allowance)),
      roles.Nodup → rm ≠ [] →
      (∀ ρ ∈ roles, lookupA rm ρ = lookupA rolesMap ρ) →
      (∀ n, n ∈ keysOf (authFold data roles (al, dis, rm)).1 ↔
          (n ∈ keysOf al ∨ (n ∈ keysOf data ∧ ∃ ρ ∈ roles, roleAllows rolesMap ρ n = true)))
      ∧ (∀ n, n ∈ keysOf (authFold data roles (al, dis, rm)).2.1 ↔
          (n ∈ keysOf dis ∨ (n ∈ keysOf data ∧ ∃ ρ ∈ roles, roleDisallows rolesMap ρ n = true)))
  | [], al, dis, rm, _, _, _ => by
    constructor <;> intro n <;> simp [authFold]
  | role :: rest, al, dis, rm, hnd, hrm, hagree => by
    obtain ⟨hAl1, hDis1, hpres, hne1⟩ :=
      getFieldsForRole_mem_spec role rm rolesMap data hrm (hagree role (by simp))
    have hndrest : rest.Nodup := (List.nodup_cons.mp hnd).2
    have hrole_notin : role ∉ rest := (List.nodup_cons.mp hnd).1
    have hagree' : ∀ ρ ∈ rest,
        lookupA (getFieldsForRole role rm data).2.2 ρ = lookupA rolesMap ρ := by
      intro ρ hρ
      rw [hpres ρ (fun h => hrole_notin (h ▸ hρ)), hagree ρ (by simp [hρ])]
    have hstep : authFold data (role :: rest) (al, dis, rm)
        = authFold data rest
            (dictUpdate al (getFieldsForRole role rm data).1,
             dictUpdate dis (getFieldsForRole role rm data).2.1,
             (getFieldsForRole role rm data).2.2) := rfl
    obtain ⟨ihAl, ihDis⟩ := authFold_mem_spec data rolesMap rest
      (dictUpdate al (getFieldsForRole role rm data).1)
      (dictUpdate dis (getFieldsForRole role rm data).2.1)
      (getFieldsForRole role rm data).2.2 hndrest hne1 hagree'
    rw [hstep]
    constructor
    · intro n
      rw [ihAl n, mem_keysOf_dictUpdate, hAl1 n]
      constructor
      · rintro ((h | ⟨hd, ha⟩) | ⟨hd, ρ, hρ, ha⟩)
        · exact Or.inl h
        · exact Or.inr ⟨hd, role, by simp, ha⟩
        · exact Or.inr ⟨hd, ρ, by simp [hρ], ha⟩
      · rintro (h | ⟨hd, ρ, hρ, ha⟩)
        · exact Or.inl (Or.inl h)
        · rcases List.mem_cons.mp hρ with rfl | hρ'
          · exact Or.inl (Or.inr ⟨hd, ha⟩)
          · exact Or.inr ⟨hd, ρ, hρ', ha⟩
    · intro n
      rw [ihDis n, mem_keysOf_dictUpdate, hDis1 n]
      constructor
      · rintro ((h | ⟨hd, ha⟩) | ⟨hd, ρ, hρ, ha⟩)
        · exact Or.inl h
        · exact Or.inr ⟨hd, role, by simp, ha⟩
        · exact Or.inr ⟨hd, ρ, by simp [hρ], ha⟩
      · rintro (h | ⟨hd, ρ, hρ, ha⟩)
        · exact Or.inl (Or.inl h)
        · rcases List.mem_cons.mp hρ with rfl | hρ'
          · exact Or.inl (Or.inr ⟨hd, ha⟩)
          · exact Or.inr ⟨hd, ρ, hρ', ha⟩

/-- No role both allows and disallows one field: a wildcard role
disallows nothing, and a list-based role splits every field between its
(id-augmented) list and the rest. -/
lemma roleAllows_roleDisallows_mutex (rolesMap : List (String × Allowance)) (ρ n : String) :
    ¬(roleAllows rolesMap ρ n = true ∧ roleDisallows rolesMap ρ n = true) := by
  unfold roleAllows roleDisallows
  cases lookupA rolesMap ρ with
  | none => simp
  | some w =>
    cases w with
    | star => simp
    | fieldList fs =>
      simp
      tauto

/-- C4.  Mutation authorization boundary of
`_available_fields_for_user` (mutation.py:143-178), for a non-empty
roles map with distinct role names: (a) when the user's roles are
disjoint from the map's keys the call fails with `NoAuthorizedRoles`
(`'No roles for user'`); (b) a field rejected with
`FieldNotAuthorized(n)` (`'Field n not allowed for user'`) is always a
supplied field with a non-`None` value that every applicable role
disallows and no applicable role allows; (c) when some role is
applicable and no supplied non-`None` field is disallowed by every
applicable role, the call succeeds; and (d) conversely, whenever some
role is applicable and some supplied field has a non-`None` value and is
disallowed by every applicable role, the call does fail with a
`FieldNotAuthorized` rejection. -/
theorem mutation_authorization_boundary {V : Type} [DecidableEq V]
    (userRoles : List String) (rolesMap : List (String × Allowance))
    (data : List (String × Option V))
    (hne : rolesMap ≠ []) (hnd : (keysOf rolesMap).Nodup) :
    ((∀ ρ ∈ keysOf rolesMap, ρ ∉ userRoles) →
        availableFieldsForUser userRoles rolesMap data = .error .noRolesForUser)
    ∧ (∀ n, availableFieldsForUser userRoles rolesMap data = .error (.fieldNotAllowed n) →
        (dataGet data n).isSome = true ∧ n ∈ keysOf data
        ∧ (∀ ρ ∈ keysOf rolesMap, ρ ∈ userRoles → roleDisallows rolesMap ρ n = true)
        ∧ ¬ ∃ ρ ∈ keysOf rolesMap, ρ ∈ userRoles ∧ roleAllows rolesMap ρ n = true)
    ∧ ((∃ ρ ∈ keysOf rolesMap, ρ ∈ userRoles) →
        (¬ ∃ n, n ∈ keysOf data ∧ (dataGet data n).isSome = true
            ∧ (∀ ρ ∈ keysOf rolesMap, ρ ∈ userRoles → roleDisallows rolesMap ρ n = true)) →
        ∃ fields rm, availableFieldsForUser userRoles rolesMap data = .ok (fields, rm))
    ∧ ((∃ ρ ∈ keysOf rolesMap, ρ ∈ userRoles) →
        (∃ n, n ∈ keysOf data ∧ (dataGet data n).isSome = true
            ∧ (∀ ρ ∈ keysOf rolesMap, ρ ∈ userRoles → roleDisallows rolesMap ρ n = true)) →
        ∃ n', availableFieldsForUser userRoles rolesMap data
            = .error (.fieldNotAllowed n')) := by
  have hie : rolesMap.isEmpty = false := by
    cases rolesMap
    · exact absurd rfl hne
    · rfl
  have hARmem : ∀ ρ, ρ ∈ availableRolesOf userRoles rolesMap
      ↔ (ρ ∈ keysOf rolesMap ∧ ρ ∈ userRoles) := by
    intro ρ
    unfold availableRolesOf
    rw [List.mem_filter]
    simp
  by_cases hARe : (availableRolesOf userRoles rolesMap).isEmpty = true
  · have hres : availableFieldsForUser userRoles rolesMap data = .error .noRolesForUser := by
      unfold availableFieldsForUser
      rw [if_neg (by simp [hie]), if_pos hARe]
    refine ⟨fun _ => hres, ?_, ?_, ?_⟩
    · intro n hn
      rw [hres] at hn
      exact absurd hn (by simp)
    · rintro ⟨ρ, hρm, hρu⟩ _
      exfalso
      have hρA : ρ ∈ availableRolesOf userRoles rolesMap := (hARmem ρ).mpr ⟨hρm, hρu⟩
      rw [List.isEmpty_iff] at hARe
      rw [hARe] at hρA
      exact absurd hρA (by simp)
    · rintro ⟨ρ, hρm, hρu⟩ _
      exfalso
      have hρA : ρ ∈ availableRolesOf userRoles rolesMap := (hARmem ρ).mpr ⟨hρm, hρu⟩
      rw [List.isEmpty_iff] at hARe
      rw [hARe] at hρA
      exact absurd hρA (by simp)
  · have hARf : (availableRolesOf userRoles rolesMap).isEmpty = false := by
      simpa using hARe
    have hARnd : (availableRolesOf userRoles rolesMap).Nodup := hnd.filter _
    obtain ⟨hAl, hDis⟩ := authFold_mem_spec data rolesMap
      (availableRolesOf userRoles rolesMap) [] [] rolesMap hARnd hne (fun _ _ => rfl)
    set res := authFold data (availableRolesOf userRoles rolesMap) ([], [], rolesMap)
      with hresdef
    set allowedFieldNames := (keysOf res.1).filter (fun x => decide (x ∈ keysOf data))
      with hAN
    set disallowedFieldNames :=
      (keysOf res.2.1).filter (fun x => decide (x ∉ allowedFieldNames)) with hDN
    have hrun : availableFieldsForUser userRoles rolesMap data
        = (match disallowedFieldNames.find? (fun x => (dataGet data x).isSome) with
           | some n => .error (.fieldNotAllowed n)
           | none => .ok (res.1, res.2.2)) := by
      unfold availableFieldsForUser
      rw [if_neg (by simp [hie]), if_neg (by simp [hARf])]
    have hchar : ∀ n, n ∈ disallowedFieldNames → (dataGet data n).isSome = true →
        (dataGet data n).isSome = true ∧ n ∈ keysOf data
        ∧ (∀ ρ ∈ keysOf rolesMap, ρ ∈ userRoles → roleDisallows rolesMap ρ n = true)
        ∧ ¬ ∃ ρ ∈ keysOf rolesMap, ρ ∈ userRoles ∧ roleAllows rolesMap ρ n = true := by
      intro n hmem hsome
      rw [hDN, List.mem_filter] at hmem
      obtain ⟨hdisK, hnotal⟩ := hmem
      rcases (hDis n).mp hdisK with h | ⟨hdataK, ρ0, hρ0, hρ0dis⟩
      · exact absurd h (by simp)
      have hnotallowed :
          ¬ ∃ ρ ∈ availableRolesOf userRoles rolesMap, roleAllows rolesMap ρ n = true := by
        rintro ⟨ρ, hρ, hal⟩
        have h1 : n ∈ keysOf res.1 := (hAl n).mpr (Or.inr ⟨hdataK, ρ, hρ, hal⟩)
        have h2 : n ∈ allowedFieldNames := by
          rw [hAN, List.mem_filter]
          exact ⟨h1, by simp [hdataK]⟩
        simp [h2] at hnotal
      refine ⟨hsome, hdataK, ?_, ?_⟩
      · intro ρ hρm hρu
        obtain ⟨w, hw⟩ := (exists_lookupA_eq_some_iff rolesMap ρ).mpr hρm
        cases w with
        | star =>
          exfalso
          refine hnotallowed ⟨ρ, (hARmem ρ).mpr ⟨hρm, hρu⟩, ?_⟩
          unfold roleAllows
          rw [hw]
        | fieldList fs =>
          by_cases hin : n ∈ fs ++ ["id"]
          · exfalso
            refine hnotallowed ⟨ρ, (hARmem ρ).mpr ⟨hρm, hρu⟩, ?_⟩
            unfold roleAllows
            rw [hw]
            simpa using hin
          · unfold roleDisallows
            rw [hw]
            simpa using hin
      · rintro ⟨ρ, hρm, hρu, hal⟩
        exact hnotallowed ⟨ρ, (hARmem ρ).mpr ⟨hρm, hρu⟩, hal⟩
    have hnil : availableRolesOf userRoles rolesMap ≠ [] := by
      intro h0
      rw [h0] at hARf
      exact absurd hARf (by simp)
    refine ⟨?_, ?_, ?_, ?_⟩
    · intro hdisj
      exfalso
      obtain ⟨ρ, hρ⟩ := List.exists_mem_of_ne_nil _ hnil
      obtain ⟨hm, hu⟩ := (hARmem ρ).mp hρ
      exact hdisj ρ hm hu
    · intro n hn
      rw [hrun] at hn
      cases hfind : disallowedFieldNames.find? (fun x => (dataGet data x).isSome) with
      | none =>
        rw [hfind] at hn
        exact absurd hn (by simp)
      | some n' =>
        rw [hfind] at hn
        have hnn : n' = n := by
          injection hn with h1
          injection h1
        subst hnn
        have hp := List.find?_some hfind
        have hm := List.mem_of_find?_eq_some hfind
        exact hchar n' hm hp
    · intro _ hno
      rw [hrun]
      cases hfind : disallowedFieldNames.find? (fun x => (dataGet data x).isSome) with
      | none => exact ⟨res.1, res.2.2, rfl⟩
      | some n =>
        exfalso
        have hp := List.find?_some hfind
        have hm := List.mem_of_find?_eq_some hfind
        obtain ⟨hsome, hdataK, hall, _⟩ := hchar n hm hp
        exact hno ⟨n, hdataK, hsome, hall⟩
    · rintro _ ⟨n, hdataK, hsome, hall⟩
      obtain ⟨ρ0, hρ0AR⟩ := List.exists_mem_of_ne_nil _ hnil
      obtain ⟨hρ0m, hρ0u⟩ := (hARmem ρ0).mp hρ0AR
      have hmemDis : n ∈ keysOf res.2.1 :=
        (hDis n).mpr (Or.inr ⟨hdataK, ρ0, hρ0AR, hall ρ0 hρ0m hρ0u⟩)
      have hnotalw : n ∉ allowedFieldNames := by
        intro hmem
        rw [hAN, List.mem_filter] at hmem
        rcases (hAl n).mp hmem.1 with h | ⟨_, ρ1, hρ1AR, hal1⟩
        · exact absurd h (by simp)
        · obtain ⟨hρ1m, hρ1u⟩ := (hARmem ρ1).mp hρ1AR
          exact roleAllows_roleDisallows_mutex rolesMap ρ1 n ⟨hal1, hall ρ1 hρ1m hρ1u⟩
      have hmemDN : n ∈ disallowedFieldNames := by
        rw [hDN, List.mem_filter]
        exact ⟨hmemDis, by simpa using hnotalw⟩
      rw [hrun]
      cases hfind : disallowedFieldNames.find? (fun x => (dataGet data x).isSome) with
      | some n' => exact ⟨n', rfl⟩
      | none =>
        exfalso
        have hnone := List.find?_eq_none.mp hfind n hmemDN
        simp [hsome] at hnone

/-- Witness for `mutation_authorization_boundary` on the spec's scenario
`rolesMap = {"editor": ["name"], "admin": "*"}`, `userRoles = ["editor"]`,
input `{"name": "x", "secret": "y"}`: the enforcement conjunct yields a
`FieldNotAuthorized` failure, and evaluating the call shows the rejected
field is `"secret"`. -/
theorem mutation_authorization_boundary_witness :
    (∃ n, availableFieldsForUser (V := String) ["editor"]
        [("editor", .fieldList ["name"]), ("admin", .star)]
        [("name", some "x"), ("secret", some "y")] = .error (.fieldNotAllowed n))
    ∧ availableFieldsForUser (V := String) ["editor"]
        [("editor", .fieldList ["name"]), ("admin", .star)]
        [("name", some "x"), ("secret", some "y")] = .error (.fieldNotAllowed "secret") :=
  ⟨(mutation_authorization_boundary ["editor"]
      [("editor", .fieldList ["name"]), ("admin", .star)]
      [("name", some "x"), ("secret", some "y")]
      (by decide) (by decide)).2.2.2
    ⟨"editor", by decide, by decide⟩
    ⟨"secret", by decide, by decide, by decide⟩,
   by decide⟩

end GrapheneSqlalchemy
